import Mathlib

/-!
Verification development for the turbosnap-config-builder import-classification
and heuristic-analysis engine.

The definitions below are a shallow embedding of the repository's core logic:

  * the Import Classifier (the two regex scan loops of `analyzeStoryFile` in
    `src/analyze-mode.ts` and of `analyzeFile` / `analyzePreviewFile` in the
    historical module variants),
  * the Shared-Wrapper Detector and the Preview-File Heuristic Analyzer,
  * the Story-Component Associator,
  * the Result Aggregator.

JavaScript regular-expression matching is embedded at the character level:
each concrete regex of the source is compiled by hand into a backtracking
matcher over `List Char` that follows the JS preference order (leftmost start
position first; alternatives left to right; greedy quantifiers longest first),
and the `while ((match = re.exec(content)) !== null)` loops are embedded as a
scanner that resumes at the end of the previous match.
-/

set_option maxRecDepth 8000

deriving instance DecidableEq for Except

/-- The NUL character, used as the out-of-bounds default of `charAt`.
It occurs in none of the patterns, so out-of-bounds reads fail every
character test exactly as running off the end of the string does in JS. -/
def nulChar : Char := Char.ofNat 0

/-- Single-quote character. -/
def squoteChar : Char := Char.ofNat 39

/-- Left-brace character. -/
def lbraceChar : Char := Char.ofNat 123

/-- Right-brace character. -/
def rbraceChar : Char := Char.ofNat 125

/-- Character at index `i`, NUL when out of bounds. -/
def charAt (s : List Char) (i : Nat) : Char := s.getD i nulChar

/-- The character class `\s` of JS regexes (ECMAScript WhiteSpace plus
LineTerminator), also the set trimmed by `String.prototype.trim`. -/
def isWsC (c : Char) : Bool :=
  c = ' ' || c = '\t' || c = '\n' || c = '\r' || c = '\x0b' || c = '\x0c' ||
  c.toNat = 0xa0 || c.toNat = 0x1680 || (0x2000 ≤ c.toNat && c.toNat ≤ 0x200a) ||
  c.toNat = 0x2028 || c.toNat = 0x2029 || c.toNat = 0x202f || c.toNat = 0x205f ||
  c.toNat = 0x3000 || c.toNat = 0xfeff

/-- The character class `['"]` used for specifier delimiters. -/
def isQuoteC (c : Char) : Bool := c = squoteChar || c = '"'

/-- `litAt s i lit` holds when the literal characters `lit` occur in `s`
starting at index `i`. -/
def litAt (s : List Char) (i : Nat) : List Char → Bool
  | [] => true
  | c :: cs => charAt s i = c && litAt s (i + 1) cs

/-- Length of the maximal run of characters satisfying `p` starting at
index `i` (the extent a greedy `[class]*` takes before backtracking). -/
def countWhile (p : Char → Bool) (s : List Char) (i : Nat) : Nat :=
  ((s.drop i).takeWhile p).length

/-- One successful regex match: start of the capture group, index one past
the end of the whole match, and the captured characters. -/
structure MatchRes where
  capStart : Nat
  matchEnd : Nat
  capture : List Char
deriving DecidableEq

/-- Matcher for the common tail `\s+from\s+['"]([^'"]+)['"]` of the
static import regex, attempted with the binding clause ending at index `q`.
Both `\s+` runs and the capture are deterministic once `q` is fixed:
each greedy class excludes the character that must follow it. -/
def tailFrom (s : List Char) (q : Nat) : Option MatchRes :=
  let w2 := countWhile isWsC s q
  if w2 = 0 then none
  else if litAt s (q + w2) (['f', 'r', 'o', 'm']) then
    let a := q + w2 + 4
    let w3 := countWhile isWsC s a
    if w3 = 0 then none
    else
      let r := a + w3
      if isQuoteC (charAt s r) then
        let caplen := countWhile (fun c => !(isQuoteC c)) s (r + 1)
        if caplen = 0 then none
        else if isQuoteC (charAt s (r + 1 + caplen)) then
          some ⟨r + 1, r + 2 + caplen, (s.drop (r + 1)).take caplen⟩
        else none
      else none
  else none

/-- First alternative `{[^}]*}` of the binding clause of the static import
regex, attempted at index `pos`, followed by the tail. -/
def altBrace (s : List Char) (pos : Nat) : Option MatchRes :=
  if charAt s pos = lbraceChar then
    let m := countWhile (fun c => c ≠ rbraceChar) s (pos + 1)
    if charAt s (pos + 1 + m) = rbraceChar then tailFrom s (pos + 2 + m)
    else none
  else none

/-- Second alternative `[^;]+` of the binding clause: greedy, so extents are
tried longest first; the argument is the extent currently tried and the
recursion steps it down to 1. -/
def alt2Loop (s : List Char) (pos : Nat) : Nat → Option MatchRes
  | 0 => none
  | len + 1 =>
    match tailFrom s (pos + len + 1) with
    | some res => some res
    | none => alt2Loop s pos len

/-- Backtracking over the greedy `\s+` after the `import` keyword: the
argument is the number of whitespace characters currently consumed, stepped
down from the maximal run to 1.  At each extent the two alternatives of the
binding clause are tried in regex order. -/
def wsLoop (s : List Char) (i6 : Nat) : Nat → Option MatchRes
  | 0 => none
  | w + 1 =>
    let pos := i6 + w + 1
    match altBrace s pos with
    | some res => some res
    | none =>
      let m := countWhile (fun c => c ≠ ';') s pos
      match alt2Loop s pos m with
      | some res => some res
      | none => wsLoop s i6 w

/-- Attempt of the static import regex
`import\s+(?:{[^}]*}|[^;]+)\s+from\s+['"]([^'"]+)['"]`
anchored at start index `i`. -/
def tryStatic (s : List Char) (i : Nat) : Option MatchRes :=
  if litAt s i (['i', 'm', 'p', 'o', 'r', 't']) then
    wsLoop s (i + 6) (countWhile isWsC s (i + 6))
  else none

/-- The deterministic tail `\s*['"]([^'"]+)['"]` of the dynamic import
regex, attempted at index `j`, the position just past the `(`. -/
def dynTail (s : List Char) (j : Nat) : Option MatchRes :=
  let w := countWhile isWsC s j
  let r := j + w
  if isQuoteC (charAt s r) then
    let caplen := countWhile (fun c => !(isQuoteC c)) s (r + 1)
    if caplen = 0 then none
    else if isQuoteC (charAt s (r + 1 + caplen)) then
      some ⟨r + 1, r + 2 + caplen, (s.drop (r + 1)).take caplen⟩
    else none
  else none

/-- Attempt of the dynamic import regex
`(?:import\(|require\(|await\s+import\()\s*['"]([^'"]+)['"]`
anchored at start index `i`.  The three alternatives begin with distinct
characters, so trying them in order is deterministic; each ends with `(`. -/
def tryDyn (s : List Char) (i : Nat) : Option MatchRes :=
  let head : Option Nat :=
    if litAt s i (['i', 'm', 'p', 'o', 'r', 't', '(']) then some (i + 7)
    else if litAt s i (['r', 'e', 'q', 'u', 'i', 'r', 'e', '(']) then some (i + 8)
    else if litAt s i (['a', 'w', 'a', 'i', 't']) then
      let w := countWhile isWsC s (i + 5)
      if w ≠ 0 && litAt s (i + 5 + w) (['i', 'm', 'p', 'o', 'r', 't', '(']) then
        some (i + 5 + w + 7)
      else none
    else none
  match head with
  | none => none
  | some j => dynTail s j

/-- The `while ((match = re.exec(content)) !== null)` loop of the source with
a global regex: scan start positions left to right, and after a match resume
at its end.  All matches have positive length, so `max` only serves to make
the fuel argument structurally adequate. -/
def scanAux (tryAt : Nat → Option MatchRes) : Nat → Nat → List MatchRes
  | 0, _ => []
  | fuel + 1, i =>
    match tryAt i with
    | some res => res :: scanAux tryAt fuel (max res.matchEnd (i + 1))
    | none => scanAux tryAt fuel (i + 1)

/-- All matches of the static import regex over the text. -/
def staticMatches (s : List Char) : List MatchRes :=
  scanAux (tryStatic s) (s.length + 2) 0

/-- All matches of the dynamic import regex over the text. -/
def dynamicMatches (s : List Char) : List MatchRes :=
  scanAux (tryDyn s) (s.length + 2) 0

/-- The result of classifying one file's text (`ImportSet` of the spec). -/
structure ImportSet where
  staticImports : List String
  dynamicImports : List String
deriving DecidableEq

/-- The Import Classifier: the two regex scan loops shared by
`analyzeStoryFile` (src/analyze-mode.ts), `analyzeFile` and
`analyzePreviewFile` in the source, applied to one file's text. -/
def classify (text : String) : ImportSet :=
  ⟨(staticMatches text.data).map (fun r => String.mk r.capture),
   (dynamicMatches text.data).map (fun r => String.mk r.capture)⟩

/-- The fixed keyword set of the Shared-Wrapper Detector
(`SHARED_WRAPPER_KEYWORDS` in the source). -/
def SHARED_WRAPPER_KEYWORDS : List String :=
  [("wrapper"), ("decorator"), ("theme"), ("provider")]

/-- Whether `needle` is a prefix of `hay`, by direct recursion so that it
reduces in the kernel. -/
def prefixMatch : List Char → List Char → Bool
  | [], _ => true
  | _ :: _, [] => false
  | c :: cs, d :: ds => c = d && prefixMatch cs ds

/-- Whether `needle` occurs contiguously in `hay`. -/
def listIncludes (needle : List Char) : List Char → Bool
  | [] => prefixMatch needle []
  | c :: rest => prefixMatch needle (c :: rest) || listIncludes needle rest

/-- Model of JS `hay.includes(needle)`: substring containment. -/
def strIncludes (hay needle : String) : Bool := listIncludes needle.data hay.data

/-- Lowercasing as a plain character map, agreeing with `String.toLower`
and, on ASCII text, with JS `toLowerCase`. -/
def toLowerStr (s : String) : String := String.mk (s.data.map Char.toLower)

/-- The per-specifier test of the detector loop:
`SHARED_WRAPPER_KEYWORDS.some(keyword => imp.toLowerCase().includes(keyword.toLowerCase()))`.
`String.toLower` agrees with `toLowerCase` on these ASCII keywords. -/
def sharedWrapperHit (imp : String) : Bool :=
  SHARED_WRAPPER_KEYWORDS.any
    (fun keyword => strIncludes (toLowerStr imp) (toLowerStr keyword))

/-- The Shared-Wrapper Detector: the `forEach`/push loop of
`analyzePreviewFile` keeps exactly the specifiers passing `sharedWrapperHit`,
in input order, which is a filter. -/
def detectSharedWrappers (specifiers : List String) : List String :=
  specifiers.filter sharedWrapperHit

/-- Structured data produced by the external `JSON.parse` collaborator. -/
inductive Json where
  | null
  | bool (b : Bool)
  | num (n : Int)
  | str (s : String)
  | arr (items : List Json)
  | obj (fields : List (String × Json))

/-- JS object property lookup on parsed JSON: with duplicate keys the last
occurrence wins, a missing key is `undefined` (`none` here). -/
def jfieldsGet (k : String) : List (String × Json) → Option Json
  | [] => none
  | (k2, v) :: rest =>
    match jfieldsGet k rest with
    | some v2 => some v2
    | none => if k2 = k then some v else none

/-- Property access `value.k` on a parsed JSON value: `undefined` (`none`)
unless the value is an object holding the key. -/
def jsonGet (j : Json) (k : String) : Option Json :=
  match j with
  | .obj fields => jfieldsGet k fields
  | _ => none

/-- The monorepo check of `analyzePreviewFile` (part_004 lines 230-245).
The external filesystem/JSON collaborators are abstracted into the
`manifest` argument: `none` means no `package.json` exists at the initial
root directory; `some none` means the file exists but reading or
`JSON.parse` threw (the catch branch); `some (some pj)` is the parsed value.
The source then returns `packageJson.workspaces !== undefined`. -/
def isMonorepoCheck (manifest : Option (Option Json)) : Bool :=
  match manifest with
  | some (some pj) => (jsonGet pj ("workspaces")).isSome
  | _ => false

/-- Model of the external `path.basename` collaborator (posix): trailing
separators are dropped, then the portion after the last separator is kept. -/
def basename (p : String) : String :=
  let cs := p.data
  let trimmed := (cs.reverse.dropWhile (fun c => c = '/')).reverse
  if trimmed.isEmpty then (if cs.isEmpty then ("") else ("/"))
  else String.mk ((trimmed.reverse.takeWhile (fun c => c ≠ '/')).reverse)

/-- Model of the external `path.dirname` collaborator (posix): the portion
before the last separator, `.` when there is none.  Trailing-separator
normalization is not modelled; no analyzed claim exercises it. -/
def dirname (p : String) : String :=
  match p.data.reverse.dropWhile (fun c => c ≠ '/') with
  | [] => (".")
  | _ :: tail => if tail.isEmpty then ("/") else String.mk tail.reverse

/-- Model of the external `path.join` collaborator: segment concatenation
with a separator.  Normalization is not modelled; no analyzed claim
exercises it. -/
def pathJoin (a b : String) : String := a ++ ("/") ++ b

/-- The import-count warning threshold (`IMPORT_THRESHOLD` in the source). -/
def IMPORT_THRESHOLD : Nat := 10

/-- The per-preview-file diagnostic record (`PreviewAnalysis` of the spec). -/
structure PreviewAnalysis where
  totalImports : Nat
  hasSharedWrappers : Bool
  sharedWrapperImports : List String
  staticImports : List String
  dynamicImports : List String
  isMonorepo : Bool
  file : String
deriving DecidableEq

/-- The Preview-File Heuristic Analyzer (`analyzePreviewFile`,
part_004 lines 188-256).  The `fs.readFileSync` of the source is abstracted
into the `content` argument and the manifest lookup into `manifest`
(see `isMonorepoCheck`). -/
def analyzePreviewFile (filePath : String) (content : String)
    (manifest : Option (Option Json)) : PreviewAnalysis :=
  let parts := classify content
  let sharedWrapperImports :=
    detectSharedWrappers (parts.staticImports ++ parts.dynamicImports)
  { totalImports := parts.staticImports.length + parts.dynamicImports.length
    hasSharedWrappers := decide (sharedWrapperImports.length > 0)
    sharedWrapperImports := sharedWrapperImports
    staticImports := parts.staticImports
    dynamicImports := parts.dynamicImports
    isMonorepo := isMonorepoCheck manifest
    file := basename filePath }

/-- The import-count warning condition of `previewMode`
(part_004 line 375): `result.totalImports > IMPORT_THRESHOLD`. -/
def importCountWarning (result : PreviewAnalysis) : Bool :=
  decide (result.totalImports > IMPORT_THRESHOLD)

/-- Characters terminating the capture `[^,}\n]+` of the `component:` field
regex of the Story-Component Associator. -/
def isNameStop (c : Char) : Bool := c = ',' || c = rbraceChar || c = '\n'

/-- Backtracking over the greedy `\s*` of `component:\s*([^,}\n]+)`:
the argument is one more than the whitespace extent currently tried, stepped
down from the maximal run to zero.  The capture itself is greedy with
nothing after it, hence maximal. -/
def compWsLoop (s : List Char) (base : Nat) : Nat → Option (List Char)
  | 0 => none
  | w + 1 =>
    let q := base + w
    let len := countWhile (fun c => !(isNameStop c)) s q
    if len = 0 then compWsLoop s base w
    else some ((s.drop q).take len)

/-- Attempt of `component:\s*([^,}\n]+)` anchored at index `i`. -/
def tryComponentAt (s : List Char) (i : Nat) : Option (List Char) :=
  if litAt s i (("component:").data) then
    compWsLoop s (i + 10) (countWhile isWsC s (i + 10) + 1)
  else none

/-- Leftmost-match scan for the (non-global) `component:` regex:
`content.match(...)` returns the first match only. -/
def componentScan (s : List Char) : Nat → Nat → Option (List Char)
  | 0, _ => none
  | fuel + 1, i =>
    match tryComponentAt s i with
    | some cap => some cap
    | none => componentScan s fuel (i + 1)

/-- Model of `String.prototype.trim`: strip the JS whitespace set from both
ends. -/
def trimChars (l : List Char) : List Char :=
  ((l.dropWhile isWsC).reverse.dropWhile isWsC).reverse

/-- `componentMatch[1].trim()` of `analyzeStoryFile` (part_001 lines 26-28):
the trimmed capture of the first `component:` field match, if any. -/
def componentNameOf (s : List Char) : Option (List Char) :=
  (componentScan s (s.length + 1) 0).map trimChars

/-- Whether the parentheses of the extracted name are balanced (every
prefix has at least as many `(` as `)`, and equal totals).  The name is
spliced verbatim into the pattern
`import\s+{[^}]*\b NAME \b[^}]*}\s+from\s+['"]([^'"]+)['"]`; an unmatched
`(` or `)` from the name makes `new RegExp` throw a SyntaxError
(unterminated group / unmatched paren). -/
def parenScan : List Char → Nat → Bool
  | [], d => d == 0
  | c :: rest, d =>
    if c = '(' then parenScan rest (d + 1)
    else if c = ')' then (if d = 0 then false else parenScan rest (d - 1))
    else parenScan rest d

/-- See `parenScan`. -/
def parenBalanced (name : List Char) : Bool := parenScan name 0

/-- Whether the name begins with a quantifier character.  In the spliced
pattern such a character lands directly after the `\b` assertion, which is
not quantifiable, so `new RegExp` throws a SyntaxError (nothing to
repeat). -/
def leadingQuantifier (name : List Char) : Bool :=
  match name with
  | c :: _ => c = '*' || c = '+' || c = '?'
  | [] => false

/-- The modelled classes of names that make construction of the
interpolated regex throw: unbalanced parentheses and a leading quantifier.
This is an under-approximation of JS pattern invalidity: a name containing
other metacharacters can make the pattern invalid in further ways (for
example a quantifier directly following another quantifier, or malformed
group syntax), or change its meaning, and the embedding does not represent
those; the theorems below therefore quantify only over extracted names
made solely of word characters, where the spliced pattern is certainly
valid and every name character is a regex literal, apart from the concrete
error cases above. -/
def namePatternBreaks (name : List Char) : Bool :=
  !(parenBalanced name) || leadingQuantifier name

/-- The character class `\w` of JS regexes, defining `\b` word boundaries. -/
def isWordChar (c : Char) : Bool := c.isAlphanum || c = '_'

/-- `\b` of JS regexes at index `k`: a word/non-word transition, with the
ends of the string counting as non-word. -/
def wordBoundaryAt (s : List Char) (k : Nat) : Bool :=
  (if k = 0 then false else isWordChar (charAt s (k - 1))) != isWordChar (charAt s k)

/-- Backtracking over the first greedy `[^}]*` of the interpolated
named-import regex: positions for the name are tried right to left starting
at the closing brace.  The argument is one more than the offset from `lo`
currently tried. -/
def nameSearchLoop (s name : List Char) (lo : Nat) : Nat → Option Nat
  | 0 => none
  | t + 1 =>
    let k := lo + t
    if litAt s k name && wordBoundaryAt s k && wordBoundaryAt s (k + name.length) then
      some k
    else nameSearchLoop s name lo t

/-- Attempt of `import\s+{[^}]*\b NAME \b[^}]*}\s+from\s+['"]([^'"]+)['"]`
anchored at index `i`.  After the name is located, the rest of the pattern
is independent of its position: the second `[^}]*` must end at the first
closing brace, and the tail is the same as the static import tail. -/
def tryNamedImportAt (s name : List Char) (i : Nat) : Option (List Char) :=
  if litAt s i (['i', 'm', 'p', 'o', 'r', 't']) then
    let w := countWhile isWsC s (i + 6)
    if w = 0 then none
    else
      let b := i + 6 + w
      if charAt s b = lbraceChar then
        let m := countWhile (fun c => c ≠ rbraceChar) s (b + 1)
        if charAt s (b + 1 + m) = rbraceChar then
          match nameSearchLoop s name (b + 1) (m + 1) with
          | some _ => (tailFrom s (b + 2 + m)).map (fun res => res.capture)
          | none => none
        else none
      else none
  else none

/-- Leftmost-match scan for the (non-global) interpolated named-import
regex. -/
def namedImportScan (s name : List Char) : Nat → Nat → Option (List Char)
  | 0, _ => none
  | fuel + 1, i =>
    match tryNamedImportAt s name i with
    | some cap => some cap
    | none => namedImportScan s name fuel (i + 1)

/-- The `componentImportMatch` capture of `analyzeStoryFile`: the module
specifier of the first named-import statement binding the component name. -/
def findNamedImport (s name : List Char) : Option (List Char) :=
  namedImportScan s name (s.length + 1) 0

/-- The per-story-file record of the associator (`StoryAnalysis` of the
spec, without the presentation-only `file` field added by the caller). -/
structure StoryAnalysis where
  staticImports : List String
  dynamicImports : List String
  componentFile : Option String
  componentAnalysis : Option ImportSet
deriving DecidableEq

/-- The Story-Component Associator (`analyzeStoryFile`, part_001 lines
13-59).  External collaborators are abstracted: `readF` is
`fs.readFileSync` (total, per the source's propagation policy its failure
would abort the run), `globF` is the `glob` collaborator queried with the
two candidate patterns.  `Except.error` models the uncaught SyntaxError of
`new RegExp` on a name that breaks the interpolated pattern (see
`namePatternBreaks` for the modelled invalidity classes and their
limits). -/
def analyzeStoryFile (filePath : String) (readF : String → String)
    (globF : String → List String) : Except Unit StoryAnalysis :=
  let content := readF filePath
  let parts := classify content
  match componentNameOf content.data with
  | none => .ok ⟨parts.staticImports, parts.dynamicImports, none, none⟩
  | some name =>
    if namePatternBreaks name then .error ()
    else
      match findNamedImport content.data name with
      | none => .ok ⟨parts.staticImports, parts.dynamicImports, none, none⟩
      | some importPath =>
        let storyDir := dirname filePath
        let p1 := pathJoin storyDir (String.mk importPath ++ (".\x7bjs,jsx,ts,tsx\x7d"))
        let p2 := pathJoin storyDir (String.mk importPath ++ ("/index.\x7bjs,jsx,ts,tsx\x7d"))
        let componentFile :=
          match globF p1 with
          | f :: _ => some f
          | [] =>
            match globF p2 with
            | f :: _ => some f
            | [] => none
        match componentFile with
        | some f =>
          .ok ⟨parts.staticImports, parts.dynamicImports, some f, some (classify (readF f))⟩
        | none => .ok ⟨parts.staticImports, parts.dynamicImports, none, none⟩

/-- Whether an `Except` result is a success. -/
def exceptOk {ε α : Type} : Except ε α → Bool
  | .ok _ => true
  | .error _ => false

/-- The extracted component name, when present, consists solely of word
characters (letters, digits, underscore): for such names the spliced
pattern is a valid regex and the embedding of its matching is exact. -/
def extractedNameWordLiteral (s : List Char) : Bool :=
  match componentNameOf s with
  | some name => name.all isWordChar
  | none => true

/-- JS identifier characters (used to state which extracted names the spec
calls identifiers). -/
def isIdentChar (c : Char) : Bool := c.isAlphanum || c = '_' || c = '$'

/-- A record handed to the Result Aggregator by `analyzeMode`:
`{ file, ...analysis }`. -/
structure AnalyzeRecord where
  file : String
  staticImports : List String
  dynamicImports : List String
  componentFile : Option String
  componentAnalysis : Option ImportSet
deriving DecidableEq

/-- The filter predicate of `displayResults` (part_001 lines 206-209): the
record's own imports or its component's imports contain a dynamic one. -/
def recordHasDynamic (r : AnalyzeRecord) : Bool :=
  decide (r.dynamicImports.length > 0) ||
    (match r.componentAnalysis with
     | some ca => decide (ca.dynamicImports.length > 0)
     | none => false)

/-- `reduce((sum, x) => sum + x, 0)` over mapped lengths. -/
def natSum (l : List Nat) : Nat := l.foldl (fun sum x => sum + x) 0

/-- The aggregate counts of the summary panel of `displayResults`
(part_001 lines 280-300). -/
structure AnalyzeSummary where
  totalFiles : Nat
  totalStoryStatic : Nat
  totalStoryDynamic : Nat
  totalComponentStatic : Nat
  totalComponentDynamic : Nat
  storyFilesWithDynamic : Nat
  componentFilesWithDynamic : Nat
deriving DecidableEq

/-- The printable grouping produced by the Result Aggregator: either the
early-return "no files with dynamic imports found" outcome, or the two
groups plus the summary counts. -/
inductive AnalyzeReport where
  | noIssues
  | issues (storyGroup componentGroup : List AnalyzeRecord) (summary : AnalyzeSummary)
deriving DecidableEq

/-- The grouping logic of `displayResults` (part_001 lines 205-321), with
rendering stripped: empty dynamic-import set short-circuits to `noIssues`
before any total is shown. -/
def displayResultsReport (results : List AnalyzeRecord) : AnalyzeReport :=
  let filesWithDynamicImports := results.filter recordHasDynamic
  if filesWithDynamicImports.isEmpty then .noIssues
  else
    let storyGroup :=
      filesWithDynamicImports.filter (fun r => decide (r.dynamicImports.length > 0))
    let componentGroup :=
      filesWithDynamicImports.filter (fun r =>
        match r.componentAnalysis with
        | some ca => decide (ca.dynamicImports.length > 0)
        | none => false)
    .issues storyGroup componentGroup
      { totalFiles := results.length
        totalStoryStatic := natSum (results.map (fun r => r.staticImports.length))
        totalStoryDynamic := natSum (results.map (fun r => r.dynamicImports.length))
        totalComponentStatic := natSum (results.map (fun r =>
          match r.componentAnalysis with
          | some ca => ca.staticImports.length
          | none => 0))
        totalComponentDynamic := natSum (results.map (fun r =>
          match r.componentAnalysis with
          | some ca => ca.dynamicImports.length
          | none => 0))
        storyFilesWithDynamic :=
          (filesWithDynamicImports.filter
            (fun r => decide (r.dynamicImports.length > 0))).length
        componentFilesWithDynamic :=
          (filesWithDynamicImports.filter (fun r =>
            match r.componentAnalysis with
            | some ca => decide (ca.dynamicImports.length > 0)
            | none => false)).length }

/-- The summary panel of the `displayResults` variant in
src/src/analyze-mode.ts (lines 160-205), which always prints totals. -/
structure ModeSummary where
  totalFiles : Nat
  totalStatic : Nat
  totalDynamic : Nat
  filesWithDynamic : Nat
  dynamicWarning : Bool
deriving DecidableEq

/-- The totals of `displayResults` in src/src/analyze-mode.ts:
`dynamicWarning` is the `filesWithDynamic > 0` ternary choosing the warning
line over the all-static line. -/
def displayResultsSummary (results : List AnalyzeRecord) : ModeSummary :=
  let filesWithDynamic :=
    (results.filter (fun r => decide (r.dynamicImports.length > 0))).length
  { totalFiles := results.length
    totalStatic := natSum (results.map (fun r => r.staticImports.length))
    totalDynamic := natSum (results.map (fun r => r.dynamicImports.length))
    filesWithDynamic := filesWithDynamic
    dynamicWarning := decide (filesWithDynamic > 0) }

/-- Capture-group start positions of all static import matches of a text:
the syntactic sites at which specifiers are counted as static. -/
def staticCaptureSites (text : String) : List Nat :=
  (staticMatches text.data).map MatchRes.capStart

/-- Capture-group start positions of all dynamic import matches of a text. -/
def dynamicCaptureSites (text : String) : List Nat :=
  (dynamicMatches text.data).map MatchRes.capStart

/-- The characters that necessarily surround the capture start of a match
of the static import regex: a quote, preceded by at least one whitespace
character, preceded by the final `m` of the keyword `from`. -/
def StaticSiteShape (s : List Char) (p : Nat) : Prop :=
  ∃ m0 k, 1 ≤ k ∧ p = m0 + k + 2 ∧ charAt s m0 = 'm' ∧
    (∀ t, 1 ≤ t → t ≤ k → isWsC (charAt s (m0 + t)) = true) ∧
    isQuoteC (charAt s (m0 + k + 1)) = true

/-- The characters that necessarily surround the capture start of a match
of the dynamic import regex: a quote, preceded by optional whitespace,
preceded by the `(` that ends each of the three callee alternatives. -/
def DynSiteShape (s : List Char) (p : Nat) : Prop :=
  ∃ p0 k, p = p0 + k + 2 ∧ charAt s p0 = '(' ∧
    (∀ t, 1 ≤ t → t ≤ k → isWsC (charAt s (p0 + t)) = true) ∧
    isQuoteC (charAt s (p0 + k + 1)) = true

/-- The Shared-Wrapper Detector rule in the spec's words: the specifier
case-insensitively contains one of the fixed keyword substrings. -/
def SharedWrapperSpec (imp : String) : Prop :=
  ∃ keyword ∈ SHARED_WRAPPER_KEYWORDS,
    (toLowerStr keyword).data <:+: (toLowerStr imp).data

instance (imp : String) : Decidable (SharedWrapperSpec imp) :=
  inferInstanceAs (Decidable (∃ keyword ∈ SHARED_WRAPPER_KEYWORDS,
    (toLowerStr keyword).data <:+: (toLowerStr imp).data))

/-- The monorepo condition in the words of the claim: the manifest exists,
parses, and declares a NON-EMPTY list of workspace member patterns. -/
def ClaimMonorepoSpec (manifest : Option (Option Json)) : Bool :=
  match manifest with
  | some (some pj) =>
    match jsonGet pj (("workspaces")) with
    | some (Json.arr (_ :: _)) => true
    | _ => false
  | _ => false

/-- The amended monorepo condition: the manifest exists, parses, and merely
has its workspaces key defined, with any value. -/
def AmendedMonorepoSpec (manifest : Option (Option Json)) : Bool :=
  match manifest with
  | some (some pj) =>
    match jsonGet pj (("workspaces")) with
    | some _ => true
    | none => false
  | _ => false

/-- A parsed manifest whose workspaces key holds an empty array. -/
def emptyWorkspacesManifest : Json := Json.obj [(("workspaces"), Json.arr [])]

/-- A story file text declaring `component: Button` and importing `Button`
from `./Button`. -/
def buttonStoryText : String :=
  "import \x7b Button \x7d from \x27./Button\x27;\n\nexport default \x7b\n  component: Button,\n\x7d;\n"

/-- A file-reading collaborator serving `buttonStoryText`. -/
def buttonStoryRead (p : String) : String :=
  if p = ("Button.stories.tsx") then buttonStoryText else ("")

/-- A file-resolution collaborator reporting that `./Button.tsx` exists for
the first candidate pattern. -/
def buttonGlob (pat : String) : List String :=
  if pat = pathJoin (".") (("./Button") ++ (".\x7bjs,jsx,ts,tsx\x7d")) then
    [("./Button.tsx")]
  else []

/-- A story file text with two `component:` assignments (`A` first,
`B` second), importing both. -/
def twoComponentStoryText : String :=
  "import \x7b A \x7d from \x27./A\x27;\nimport \x7b B \x7d from \x27./B\x27;\nexport default \x7b component: A \x7d;\nconst other = \x7b component: B \x7d;\n"

/-- A file-reading collaborator serving `twoComponentStoryText`. -/
def twoComponentRead (p : String) : String :=
  if p = ("s.stories.ts") then twoComponentStoryText else ("")

/-- A file-resolution collaborator resolving both `./A` and `./B`. -/
def twoComponentGlob (pat : String) : List String :=
  if pat = pathJoin (".") (("./A") ++ (".\x7bjs,jsx,ts,tsx\x7d")) then [("./A.tsx")]
  else if pat = pathJoin (".") (("./B") ++ (".\x7bjs,jsx,ts,tsx\x7d")) then [("./B.tsx")]
  else []

/-- A story file text whose extracted component name `wrapped(Button`
contains an unbalanced parenthesis. -/
def unbalancedStoryText : String :=
  "import \x7b Button \x7d from \x27./Button\x27;\nconst meta = \x7b\n  component: wrapped(Button\n\x7d;\n"

/-- A story file text with no `component:` field. -/
def noComponentText : String := "const x = 1;"

/-- A text consisting of `n` distinct static import statements. -/
def importLines (n : Nat) : String :=
  String.join ((List.range n).map (fun k =>
    ("import a") ++ toString k ++ (" from \x27./m") ++ toString k ++ ("\x27;\n")))

/-- A text in which the same specifier occurs once at a static site and
once at a dynamic site. -/
def bothSitesText : String :=
  "import x from \x27./a\x27;\nconst y = require(\x27./a\x27);\n"

/-! ### Positional facts about successful matches

These lemmas recover, from a successful match, the characters that must
stand at fixed offsets around the capture group.  They drive the proof that
a capture site of the static import regex can never also be a capture site
of the dynamic import regex.
-/

theorem takeWhile_getD {p : Char → Bool} :
    ∀ (l : List Char) (t : Nat), t < (l.takeWhile p).length →
      p (l.getD t nulChar) = true
  | [], t, h => by simp [List.takeWhile] at h
  | c :: l, t, h => by
    by_cases hc : p c
    · cases t with
      | zero => simpa using hc
      | succ t =>
        rw [List.takeWhile_cons, if_pos hc] at h
        exact takeWhile_getD l t (by simpa using h)
    · rw [List.takeWhile_cons, if_neg hc] at h
      simp at h

/-- Every character inside the run counted by `countWhile` satisfies the
predicate. -/
theorem countWhile_charAt {p : Char → Bool} (s : List Char) (i t : Nat)
    (h : t < countWhile p s i) : p (charAt s (i + t)) = true := by
  have h2 := takeWhile_getD (p := p) (s.drop i) t h
  rw [List.getD_eq_getElem?_getD, List.getElem?_drop] at h2
  rw [charAt, List.getD_eq_getElem?_getD]
  exact h2

/-- Every character of a literal matched by `litAt` stands at its offset. -/
theorem litAt_charAt :
    ∀ (lit : List Char) (s : List Char) (i : Nat), litAt s i lit = true →
      ∀ t, t < lit.length → charAt s (i + t) = lit.getD t nulChar
  | [], _, _, _, t, ht => by simp at ht
  | c :: cs, s, i, h, t, ht => by
    rw [litAt, Bool.and_eq_true, decide_eq_true_eq] at h
    cases t with
    | zero => simpa using h.1
    | succ t =>
      have h2 := litAt_charAt cs s (i + 1) h.2 t (by simpa using ht)
      have h3 : i + 1 + t = i + (t + 1) := by omega
      rw [h3] at h2
      simpa using h2

theorem tailFrom_shape {s : List Char} {q : Nat} {res : MatchRes}
    (h : tailFrom s q = some res) : StaticSiteShape s res.capStart := by
  simp only [tailFrom] at h
  split at h
  · exact absurd h (by simp)
  split at h
  case isFalse => exact absurd h (by simp)
  case isTrue hfrom =>
    split at h
    · exact absurd h (by simp)
    case isFalse hw3 =>
      split at h
      case isFalse => exact absurd h (by simp)
      case isTrue hquote =>
        split at h
        · exact absurd h (by simp)
        split at h
        case isFalse => exact absurd h (by simp)
        case isTrue hquote2 =>
          rw [Option.some.injEq] at h
          subst h
          refine ⟨q + countWhile isWsC s q + 3, countWhile isWsC s (q + countWhile isWsC s q + 4),
            by omega, by simp only [MatchRes.mk.injEq]; omega, ?_, ?_, ?_⟩
          · have hm := litAt_charAt _ s (q + countWhile isWsC s q) hfrom 3 (by simp)
            simpa using hm
          · intro t ht1 ht2
            have hw := countWhile_charAt (p := isWsC) s (q + countWhile isWsC s q + 4) (t - 1)
              (by omega)
            have harith : q + countWhile isWsC s q + 4 + (t - 1) =
                q + countWhile isWsC s q + 3 + t := by omega
            rwa [harith] at hw
          · have harith : q + countWhile isWsC s q + 3 +
                countWhile isWsC s (q + countWhile isWsC s q + 4) + 1 =
                q + countWhile isWsC s q + 4 +
                countWhile isWsC s (q + countWhile isWsC s q + 4) := by omega
            rw [harith]
            exact hquote

theorem altBrace_shape {s : List Char} {pos : Nat} {res : MatchRes}
    (h : altBrace s pos = some res) : StaticSiteShape s res.capStart := by
  simp only [altBrace] at h
  split at h
  · split at h
    · exact tailFrom_shape h
    · exact absurd h (by simp)
  · exact absurd h (by simp)

theorem alt2Loop_shape {s : List Char} {pos : Nat} :
    ∀ {n : Nat} {res : MatchRes}, alt2Loop s pos n = some res →
      StaticSiteShape s res.capStart := by
  intro n
  induction n with
  | zero => intro res h; simp [alt2Loop] at h
  | succ len ih =>
    intro res h
    rw [alt2Loop] at h
    split at h
    · next heq =>
      rw [Option.some.injEq] at h
      subst h
      exact tailFrom_shape heq
    · exact ih h

theorem wsLoop_shape {s : List Char} {i6 : Nat} :
    ∀ {n : Nat} {res : MatchRes}, wsLoop s i6 n = some res →
      StaticSiteShape s res.capStart := by
  intro n
  induction n with
  | zero => intro res h; simp [wsLoop] at h
  | succ w ih =>
    intro res h
    rw [wsLoop] at h
    split at h
    · next heq =>
      rw [Option.some.injEq] at h
      subst h
      exact altBrace_shape heq
    · dsimp only [] at h
      split at h
      · next heq =>
        rw [Option.some.injEq] at h
        subst h
        exact alt2Loop_shape heq
      · exact ih h

theorem tryStatic_shape {s : List Char} {i : Nat} {res : MatchRes}
    (h : tryStatic s i = some res) : StaticSiteShape s res.capStart := by
  simp only [tryStatic] at h
  split at h
  · exact wsLoop_shape h
  · exact absurd h (by simp)

theorem dynTail_spec {s : List Char} {j : Nat} {res : MatchRes}
    (h : dynTail s j = some res) :
    ∃ k, res.capStart = j + k + 1 ∧
      (∀ t, t < k → isWsC (charAt s (j + t)) = true) ∧
      isQuoteC (charAt s (j + k)) = true := by
  simp only [dynTail] at h
  split at h
  case isFalse => exact absurd h (by simp)
  case isTrue hquote =>
    split at h
    · exact absurd h (by simp)
    split at h
    case isFalse => exact absurd h (by simp)
    case isTrue =>
      rw [Option.some.injEq] at h
      subst h
      exact ⟨countWhile isWsC s j, rfl,
        fun t ht => countWhile_charAt (p := isWsC) s j t ht, hquote⟩

theorem tryDyn_shape {s : List Char} {i : Nat} {res : MatchRes}
    (h : tryDyn s i = some res) : DynSiteShape s res.capStart := by
  simp only [tryDyn] at h
  split at h
  · exact absurd h (by simp)
  · next j heq =>
    have hpar : charAt s (j - 1) = '(' ∧ 1 ≤ j := by
      split at heq
      · next hlit =>
        rw [Option.some.injEq] at heq
        subst heq
        have := litAt_charAt _ s i hlit 6 (by simp)
        constructor
        · simpa using this
        · omega
      · split at heq
        · next hlit =>
          rw [Option.some.injEq] at heq
          subst heq
          have := litAt_charAt _ s i hlit 7 (by simp)
          constructor
          · simpa using this
          · omega
        · split at heq
          · split at heq
            case isFalse => exact absurd heq (by simp)
            case isTrue hcond =>
              rw [Bool.and_eq_true] at hcond
              rw [Option.some.injEq] at heq
              subst heq
              have := litAt_charAt _ s (i + 5 + countWhile isWsC s (i + 5)) hcond.2 6 (by simp)
              constructor
              · have harith : i + 5 + countWhile isWsC s (i + 5) + 7 - 1 =
                    i + 5 + countWhile isWsC s (i + 5) + 6 := by omega
                rw [harith]
                simpa using this
              · omega
          · exact absurd heq (by simp)
    obtain ⟨k, hcap, hws, hquote⟩ := dynTail_spec h
    refine ⟨j - 1, k, by omega, hpar.1, ?_, ?_⟩
    · intro t ht1 ht2
      have hw := hws (t - 1) (by omega)
      have harith : j + (t - 1) = j - 1 + t := by omega
      rwa [harith] at hw
    · have harith : j - 1 + k + 1 = j + k := by omega
      rw [harith]
      exact hquote

theorem scanAux_mem {tryAt : Nat → Option MatchRes} :
    ∀ {fuel i : Nat} {res : MatchRes}, res ∈ scanAux tryAt fuel i →
      ∃ j, tryAt j = some res := by
  intro fuel
  induction fuel with
  | zero => intro i res h; simp [scanAux] at h
  | succ fuel ih =>
    intro i res h
    rw [scanAux] at h
    split at h
    · next r heq =>
      rcases List.mem_cons.mp h with h1 | h2
      · exact ⟨i, h1 ▸ heq⟩
      · exact ih h2
    · exact ih h

theorem shapes_exclusive {s : List Char} {p : Nat}
    (hs : StaticSiteShape s p) (hd : DynSiteShape s p) : False := by
  obtain ⟨m0, k1, hk1, hp1, hm, hws1, _⟩ := hs
  obtain ⟨p0, k2, hp2, hpar, hws2, _⟩ := hd
  rcases Nat.lt_trichotomy k1 k2 with hlt | heq | hgt
  · have hm0 : m0 = p0 + (k2 - k1) := by omega
    have hw := hws2 (k2 - k1) (by omega) (by omega)
    rw [← hm0, hm] at hw
    exact absurd hw (by decide)
  · have hm0 : m0 = p0 := by omega
    rw [hm0, hpar] at hm
    exact absurd hm (by decide)
  · have hp0 : p0 = m0 + (k1 - k2) := by omega
    have hw := hws1 (k1 - k2) (by omega) (by omega)
    rw [← hp0, hpar] at hw
    exact absurd hw (by decide)

/-! ### Claim theorems -/

/-- C1: for the Import Classifier, `classify ""` returns two empty
sequences; `classify "import x from './a';"` returns static `["./a"]` and
no dynamic imports; and adding `const m = require('./b');` adds exactly the
dynamic import `"./b"`. -/
theorem c1_classify_examples :
    classify ("") = ⟨[], []⟩ ∧
    classify ("import x from \x27./a\x27;") = ⟨[("./a")], []⟩ ∧
    classify ("import x from \x27./a\x27; const m = require(\x27./b\x27);") =
      ⟨[("./a")], [("./b")]⟩ := by
  refine ⟨by decide, by decide, by decide⟩

theorem prefixMatch_iff : ∀ (n h : List Char), prefixMatch n h = true ↔ n <+: h
  | [], h => by simp [prefixMatch]
  | _ :: _, [] => by simp [prefixMatch]
  | c :: cs, d :: ds => by
    simp [prefixMatch, List.cons_prefix_cons, prefixMatch_iff cs ds]

theorem listIncludes_iff (n : List Char) : ∀ (h : List Char), listIncludes n h = true ↔ n <:+: h
  | [] => by simp [listIncludes, prefixMatch_iff, List.infix_nil]
  | c :: rest => by
    simp [listIncludes, prefixMatch_iff, listIncludes_iff n rest, List.infix_cons_iff]

theorem sharedWrapperHit_iff (imp : String) :
    sharedWrapperHit imp = true ↔ SharedWrapperSpec imp := by
  simp [sharedWrapperHit, SharedWrapperSpec, List.any_eq_true, strIncludes, listIncludes_iff]

/-- C2: the detector returns exactly the subsequence of specifiers that
case-insensitively contain one of the keyword substrings, preserving order
and duplicates (it is the filter by that rule), and the two concrete
examples of the spec hold. -/
theorem c2_detect_shared_wrappers :
    (∀ specifiers : List String, detectSharedWrappers specifiers =
      specifiers.filter (fun imp => decide (SharedWrapperSpec imp))) ∧
    detectSharedWrappers [("./Theme"), ("./utils"), ("./Provider")] =
      [("./Theme"), ("./Provider")] ∧
    detectSharedWrappers [] = [] := by
  refine ⟨?_, by decide, by decide⟩
  intro specifiers
  unfold detectSharedWrappers
  apply List.filter_congr
  intro imp _
  by_cases hs : SharedWrapperSpec imp
  · rw [(sharedWrapperHit_iff imp).mpr hs, decide_eq_true hs]
  · have hfalse : sharedWrapperHit imp = false := by
      rw [← Bool.not_eq_true]
      exact fun hh => hs ((sharedWrapperHit_iff imp).mp hh)
    rw [hfalse, decide_eq_false hs]

/-- C3: for every preview analysis record, the import-count warning of the
reporter fires exactly when `totalImports` strictly exceeds the threshold
10; a preview file with exactly 10 imports yields `totalImports = 10` and
no warning, while 11 imports trigger it. -/
theorem c3_import_threshold_boundary :
    (∀ result : PreviewAnalysis,
      importCountWarning result = true ↔ IMPORT_THRESHOLD < result.totalImports) ∧
    (analyzePreviewFile ("preview.ts") (importLines 10) none).totalImports = 10 ∧
    importCountWarning (analyzePreviewFile ("preview.ts") (importLines 10) none) = false ∧
    (analyzePreviewFile ("preview.ts") (importLines 11) none).totalImports = 11 ∧
    importCountWarning (analyzePreviewFile ("preview.ts") (importLines 11) none) = true := by
  refine ⟨?_, by decide, by decide, by decide, by decide⟩
  intro result
  simp [importCountWarning]

/-- C4: every record produced by the preview analyzer satisfies
`totalImports = |staticImports| + |dynamicImports|`, its
`sharedWrapperImports` is the Shared-Wrapper Detector applied to the
static imports followed by the dynamic imports, and `hasSharedWrappers` holds
exactly when that list is non-empty. -/
theorem c4_preview_record_invariants :
    ∀ (filePath content : String) (manifest : Option (Option Json)),
      (analyzePreviewFile filePath content manifest).totalImports =
        (analyzePreviewFile filePath content manifest).staticImports.length +
          (analyzePreviewFile filePath content manifest).dynamicImports.length ∧
      (analyzePreviewFile filePath content manifest).sharedWrapperImports =
        detectSharedWrappers
          ((analyzePreviewFile filePath content manifest).staticImports ++
            (analyzePreviewFile filePath content manifest).dynamicImports) ∧
      ((analyzePreviewFile filePath content manifest).hasSharedWrappers = true ↔
        (analyzePreviewFile filePath content manifest).sharedWrapperImports ≠ []) := by
  intro filePath content manifest
  refine ⟨rfl, rfl, ?_⟩
  simp only [analyzePreviewFile, decide_eq_true_eq, gt_iff_lt]
  exact List.length_pos

/-- C5 counterexample: a manifest that parses and declares an EMPTY
workspaces list still makes the code report a monorepo, contradicting the
claim's non-emptiness requirement. -/
theorem c5_counterexample_empty_workspaces :
    isMonorepoCheck (some (some emptyWorkspacesManifest)) = true ∧
    ClaimMonorepoSpec (some (some emptyWorkspacesManifest)) = false :=
  ⟨rfl, rfl⟩

/-- C5 (amended): `isMonorepo` is true iff the manifest exists, parses, and
has its workspaces key defined — with any value, not only a non-empty list;
any read or parse failure yields false rather than an error. -/
theorem c5_amended_workspaces_defined :
    ∀ manifest : Option (Option Json),
      isMonorepoCheck manifest = AmendedMonorepoSpec manifest ∧
      isMonorepoCheck none = false ∧
      isMonorepoCheck (some none) = false := by
  intro manifest
  refine ⟨?_, rfl, rfl⟩
  match manifest with
  | none => rfl
  | some none => rfl
  | some (some pj) =>
    cases h : jsonGet pj (("workspaces")) <;>
      simp [isMonorepoCheck, AmendedMonorepoSpec, h]

/-- C9: the Result Aggregator on an empty record list does not fail: the
grouping short-circuits to the "no issues" outcome and the summary variant
reports all-zero totals with no dynamic-import warning. -/
theorem c9_empty_aggregation :
    displayResultsReport [] = AnalyzeReport.noIssues ∧
    displayResultsSummary [] = ⟨0, 0, 0, 0, false⟩ :=
  ⟨rfl, rfl⟩

/-- C10: the `file` field of every preview analysis record is the base name
of the analyzed path, and on a nested path the base name differs from the
full path that was passed in. -/
theorem c10_preview_file_is_basename :
    (∀ (filePath content : String) (manifest : Option (Option Json)),
      (analyzePreviewFile filePath content manifest).file = basename filePath) ∧
    basename ("/home/user/.storybook/preview.ts") = ("preview.ts") ∧
    ("preview.ts" : String) ≠ ("/home/user/.storybook/preview.ts") := by
  refine ⟨fun _ _ _ => rfl, by decide, by decide⟩

/-- C6: no single syntactic occurrence contributes to both sequences: a
capture site of the dynamic import regex is never also a capture site of
the static import regex over any text, while the same literal specifier may
appear in both sequences from separate sites. -/
theorem c6_sites_mutually_exclusive :
    (∀ (text : String) (p : Nat),
      p ∈ staticCaptureSites text → p ∉ dynamicCaptureSites text) ∧
    classify bothSitesText = ⟨[("./a")], [("./a")]⟩ := by
  constructor
  · intro text p hp hq
    simp only [staticCaptureSites, List.mem_map] at hp
    simp only [dynamicCaptureSites, List.mem_map] at hq
    obtain ⟨res1, hres1, hcap1⟩ := hp
    obtain ⟨res2, hres2, hcap2⟩ := hq
    obtain ⟨i1, hi1⟩ := scanAux_mem hres1
    obtain ⟨i2, hi2⟩ := scanAux_mem hres2
    have h1 := tryStatic_shape hi1
    have h2 := tryDyn_shape hi2
    rw [hcap1] at h1
    rw [hcap2] at h2
    exact shapes_exclusive h1 h2
  · decide

theorem c6_witness :
    (15 ∈ staticCaptureSites bothSitesText) ∧ 15 ∉ dynamicCaptureSites bothSitesText :=
  ⟨by decide, c6_sites_mutually_exclusive.1 bothSitesText 15 (by decide)⟩

/-- C7: on a story declaring `component: Button` with a named import of
`Button` from `./Button` and a resolver reporting `./Button.tsx`, the
associator returns that component file and a present component analysis;
with two `component:` assignments only the first is honored. -/
theorem c7_component_association :
    analyzeStoryFile ("Button.stories.tsx") buttonStoryRead buttonGlob =
      .ok ⟨[("./Button")], [], some ("./Button.tsx"), some ⟨[], []⟩⟩ ∧
    analyzeStoryFile ("s.stories.ts") twoComponentRead twoComponentGlob =
      .ok ⟨[("./A"), ("./B")], [], some ("./A.tsx"), some ⟨[], []⟩⟩ := by
  refine ⟨by decide, by decide⟩

/-- C8 counterexample: on a well-formed story text whose extracted trimmed
identifier `wrapped(Button` contains non-identifier characters, the
association does not silently fail: the dynamically built regex is invalid
and the analyzer raises an error. -/
theorem c8_counterexample_regex_throw :
    componentNameOf unbalancedStoryText.data = some (("wrapped(Button").data) ∧
    (("wrapped(Button").data).any (fun c => !(isIdentChar c)) = true ∧
    analyzeStoryFile ("bad.stories.ts") (fun _ => unbalancedStoryText) (fun _ => []) =
      .error () := by
  refine ⟨by decide, by decide, by decide⟩

theorem parenScan_all_word :
    ∀ (name : List Char) (d : Nat), name.all isWordChar = true →
      parenScan name d = (d == 0)
  | [], _, _ => rfl
  | c :: rest, d, h => by
    rw [List.all_cons, Bool.and_eq_true] at h
    have hc1 : ¬(c = '(') := fun he => by
      rw [he] at h
      exact absurd h.1 (by decide)
    have hc2 : ¬(c = ')') := fun he => by
      rw [he] at h
      exact absurd h.1 (by decide)
    rw [parenScan, if_neg hc1, if_neg hc2]
    exact parenScan_all_word rest d h.2

theorem all_word_no_break {name : List Char} (h : name.all isWordChar = true) :
    namePatternBreaks name = false := by
  have hbal : parenBalanced name = true := by
    rw [parenBalanced, parenScan_all_word name 0 h]
    rfl
  have hlead : leadingQuantifier name = false := by
    cases name with
    | nil => rfl
    | cons c rest =>
      rw [List.all_cons, Bool.and_eq_true] at h
      rw [leadingQuantifier]
      have hc1 : ¬(c = '*') := fun he => by
        rw [he] at h
        exact absurd h.1 (by decide)
      have hc2 : ¬(c = '+') := fun he => by
        rw [he] at h
        exact absurd h.1 (by decide)
      have hc3 : ¬(c = '?') := fun he => by
        rw [he] at h
        exact absurd h.1 (by decide)
      simp [hc1, hc2, hc3]
  rw [namePatternBreaks, hbal, hlead]
  rfl

/-- C8 (amended): for every story text with no `component:` field the
associator returns the classifier output with no `componentFile` and no
`componentAnalysis`, regardless of import content, and never raises an
error; and whenever the extracted trimmed identifier consists solely of
word characters — so that the interpolated pattern is valid — the
associator never raises an error either.  The silent-failure guarantee for
identifiers containing non-identifier characters does NOT hold
universally: such an identifier can make the dynamically built regex
invalid, and the analyzer then throws instead of silently returning
absence. -/
theorem c8_amended_silent_absence :
    ∀ (filePath : String) (readF : String → String) (globF : String → List String),
      extractedNameWordLiteral (readF filePath).data = true →
      exceptOk (analyzeStoryFile filePath readF globF) = true ∧
      (componentNameOf (readF filePath).data = none →
        analyzeStoryFile filePath readF globF =
          .ok ⟨(classify (readF filePath)).staticImports,
            (classify (readF filePath)).dynamicImports, none, none⟩) := by
  intro filePath readF globF hsafe
  constructor
  · unfold analyzeStoryFile
    dsimp only []
    split
    · rfl
    · next name hn =>
      simp only [extractedNameWordLiteral, hn] at hsafe
      rw [if_neg (by rw [all_word_no_break hsafe]; exact Bool.false_ne_true)]
      repeat (first | rfl | split)
  · intro hnone
    unfold analyzeStoryFile
    simp only [hnone]

theorem c8_witness :
    extractedNameWordLiteral noComponentText.data = true ∧
    exceptOk (analyzeStoryFile ("story.stories.ts") (fun _ => noComponentText)
      (fun _ => [])) = true ∧
    analyzeStoryFile ("story.stories.ts") (fun _ => noComponentText) (fun _ => []) =
      .ok ⟨(classify noComponentText).staticImports,
        (classify noComponentText).dynamicImports, none, none⟩ :=
  ⟨by decide,
   (c8_amended_silent_absence ("story.stories.ts") (fun _ => noComponentText)
     (fun _ => []) (by decide)).1,
   (c8_amended_silent_absence ("story.stories.ts") (fun _ => noComponentText)
     (fun _ => []) (by decide)).2 (by decide)⟩
